import Mathlib

/-!
Shallow embedding of the event-radar scraper (`src/scrape.py`) and proofs
about its classifier, deduplication, temporal filtering, sorting, date
resolution, link resolution and adapter emission logic.

Python strings are modelled as Lean `String`s (lists of unicode scalar
values); Python string comparison, slicing, `in`, `startswith`, `split`,
`join`, `lower` and the two regex substitutions used by `clean` are
translated explicitly below, restricted (where noted) to the ASCII
behaviour actually exercised by the repository's data.
-/

namespace EventRadar

/-- Code point of a character (Python `ord`). -/
def cp (c : Char) : Nat := c.toNat

/-- Boolean test for an ASCII decimal digit, by code point. -/
def isDig (c : Char) : Bool := 48 ≤ cp c && cp c ≤ 57

/-- Lexicographic `≤` on character lists by code point: the comparison
Python uses for `str <= str` (and, flipped, for `>=`). -/
def pyLeL : List Char → List Char → Bool
  | [], _ => true
  | _ :: _, [] => false
  | a :: as, b :: bs =>
    if cp a < cp b then true
    else if cp a = cp b then pyLeL as bs
    else false

/-- Python `s <= t` on strings. -/
def pyLe (s t : String) : Bool := pyLeL s.toList t.toList

/-- Python `s >= t` on strings. -/
def pyGe (s t : String) : Bool := pyLe t s

/-- Python slice `s[:n]`. -/
def pyTake (n : Nat) (s : String) : String := ⟨s.toList.take n⟩

/-- Python `str.lower()`, restricted to its ASCII action (the keyword
lists and the data compared against them are ASCII). -/
def lowerStr (s : String) : String := ⟨s.toList.map Char.toLower⟩

/-- Does `pat` occur at the head of `l`? (helper for substring search). -/
def leadEq : List Char → List Char → Bool
  | [], _ => true
  | _ :: _, [] => false
  | a :: as, b :: bs => a == b && leadEq as bs

/-- Does `pat` occur anywhere in `l`? (helper for Python `in`). -/
def hasSub (pat : List Char) : List Char → Bool
  | [] => pat.isEmpty
  | c :: rest => leadEq pat (c :: rest) || hasSub pat rest

/-- Python `needle in hay` substring containment on strings. -/
def containsSub (hay needle : String) : Bool := hasSub needle.toList hay.toList

/-- Python `s.startswith(p)`. -/
def pyStartsWith (s p : String) : Bool := leadEq p.toList s.toList

/-- Python `s.split(sep)` for a single-character separator, on char
lists: accumulates the current chunk (reversed) and cuts at each
separator, producing at least one (possibly empty) chunk. -/
def pySplitAux (sep : Char) (acc : List Char) : List Char → List (List Char)
  | [] => [acc.reverse]
  | c :: r => if c = sep then acc.reverse :: pySplitAux sep [] r else pySplitAux sep (c :: acc) r

/-- `"/".join(url.split("/")[:3])` from `scrape.py` line 120: the scheme
and host portion of a URL, used to absolutise root-relative links. -/
def urlOrigin (url : String) : String :=
  ⟨List.intercalate ['/'] ((pySplitAux '/' [] url.toList).take 3)⟩

/-- ASCII fragment of Python's regex class `\s` (the repository only
feeds it HTML text). -/
def isWsChar (c : Char) : Bool :=
  c == ' ' || c == '\t' || c == '\n' || c == '\r' || cp c == 12 || cp c == 11

/-- One-pass rendering of the substitution `re.sub(r"<[^>]+>", " ", s)`
from `clean` (`scrape.py` line 64). The state `none` means "not inside
a candidate tag"; `some buf` means a `<` was seen and `buf` holds the
(reversed) non-`>` characters read since. A `>` after a nonempty buffer
closes a match (replaced by one space); a `>` immediately after `<` is
no match (`[^>]+` needs one character), so both are kept literally; a
`<` never closed by `>` is kept literally with its buffer. This agrees
with the regex's leftmost non-overlapping matching because a candidate
tag can only end at the first `>` after its `<`. -/
def stripTagsGo : Option (List Char) → List Char → List Char
  | none, [] => []
  | none, c :: rest => if c = '<' then stripTagsGo (some []) rest else c :: stripTagsGo none rest
  | some buf, [] => '<' :: buf.reverse
  | some buf, c :: rest =>
    if c = '>' then
      if buf.isEmpty then '<' :: '>' :: stripTagsGo none rest
      else ' ' :: stripTagsGo none rest
    else stripTagsGo (some (c :: buf)) rest

/-- The tag-stripping substitution applied to a character list. -/
def stripTagsL (l : List Char) : List Char := stripTagsGo none l

/-- The substitution `re.sub(r"\s+", " ", s)`: collapse each maximal
whitespace run to one space. `prevWs` records whether the previous
character belonged to a run already emitted. -/
def collapseWsAux (prevWs : Bool) : List Char → List Char
  | [] => []
  | c :: rest =>
    if isWsChar c then
      if prevWs then collapseWsAux true rest
      else ' ' :: collapseWsAux true rest
    else c :: collapseWsAux false rest

/-- Python `str.strip()` (whitespace from both ends). -/
def pyStripL (l : List Char) : List Char :=
  ((l.dropWhile (fun c => isWsChar c)).reverse.dropWhile (fun c => isWsChar c)).reverse

/-- `clean` from `scrape.py` lines 62-65: empty-guard, strip HTML tags,
collapse whitespace, strip, truncate to 400 characters. -/
def clean (s : String) : String :=
  if s = "" then ""
  else ⟨(pyStripL (collapseWsAux false (stripTagsL s.toList))).take 400⟩

/-- `INCLUDE_KW` from `scrape.py` lines 23-33. -/
def INCLUDE_KW : List String := [
  "robot", "drone", "uav", "uas", "autonomous", "automation",
  "manufactur", "hardware", "3d print", "additive", "cnc", "fabricat",
  "startup", "entrepreneur", "venture", "pitch", "demo day", "accelerat",
  "ai ", "artificial intelligence", "machine learning", "deep learning",
  "computer vision", "neural", "llm", "generative ai",
  "engineer", "mechan", "sensor", "embedd",
  "networking", "mixer", "career fair", "hackathon",
  "innovation", "incubator", "maker", "prototype",
  "aerospace", "defense", "space", "seminar", "colloqui"]

/-- `EXCLUDE_KW` from `scrape.py` lines 34-39. -/
def EXCLUDE_KW : List String := [
  "basketball", "hockey", "football", "baseball", "softball", "lacrosse",
  "yoga", "meditation", "worship", "prayer", " mass ",
  "alumni reunion", "commencement", "graduation ceremony",
  "parking", "dining", "meal plan", "intramural"]

/-- `TAG_RULES` from `scrape.py` lines 40-47, order preserved. -/
def TAG_RULES : List (List String × String) := [
  (["robot", "robotics summit", "massrobotics", "humanoid"], "robotics"),
  (["drone", "uav", "uas", "unmanned", "part 107", "fpv"], "drones"),
  (["manufactur", "3d print", "additive", "cnc", "hardware meetup", "fabricat", "rapid +", "aerodef", "device"], "manufacturing"),
  (["ai ", "artificial intelligence", "machine learning", "deep learning", "llm", "neural", "computer vision", "generative"], "ai"),
  (["startup", "entrepreneur", "venture", "pitch", "accelerat", "incubator", "demo day", "$100k", "founder"], "startup"),
  (["networking", "mixer", "career fair", "cross university", "connect", "social"], "networking")]

/-- The rule loop of `tag_for`: return the tag of the first rule any of
whose keywords occurs in `t`; `"talk"` when none matches. -/
def tagAux (t : String) : List (List String × String) → String
  | [] => "talk"
  | (kws, tag) :: rest => if kws.any (fun k => containsSub t k) then tag else tagAux t rest

/-- `tag_for` from `scrape.py` lines 49-54. -/
def tag_for (title desc : String) : String :=
  tagAux (lowerStr (title ++ " " ++ desc)) TAG_RULES

/-- `relevant` from `scrape.py` lines 56-60: exclusion keywords veto,
then inclusion keywords decide. -/
def relevant (title desc : String) : Bool :=
  let t := lowerStr (title ++ " " ++ desc)
  if EXCLUDE_KW.any (fun k => containsSub t k) then false
  else INCLUDE_KW.any (fun k => containsSub t k)

/-- The canonical event record built by the adapters (`dict(...)` calls
in `scrape.py`). `location`, `pick` and `pickNote` are optional because
the corresponding dict keys are absent on some events. -/
structure Event where
  date : String
  title : String
  source : String
  tag : String
  desc : String
  link : String
  time : String
  location : Option String
  pick : Option Bool
  pickNote : Option String
deriving DecidableEq

/-- Minimal event builder used to state concrete instances in theorems;
only `date` and `title` vary because only they feed dedup/filter/sort. -/
def sampleEv (date title : String) : Event :=
  { date := date, title := title, source := "S", tag := "talk", desc := "",
    link := "L", time := "TBD", location := none, pick := none, pickNote := none }

/-- Parsed result of the external `datetime.fromisoformat` call: only
the components `scrape.py` reads (`strftime("%Y-%m-%d")`, `.hour`, and
minutes for the 12-hour display). -/
structure PyDateTime where
  year : Nat
  month : Nat
  day : Nat
  hour : Nat
  minute : Nat
deriving DecidableEq

/-- Read two ASCII digits. -/
def parse2 : List Char → Option (Nat × List Char)
  | a :: b :: rest =>
    if isDig a && isDig b then some (10 * (cp a - 48) + (cp b - 48), rest) else none
  | _ => none

/-- Read four ASCII digits. -/
def parse4 : List Char → Option (Nat × List Char)
  | a :: b :: c :: d :: rest =>
    if isDig a && isDig b && isDig c && isDig d then
      some (1000 * (cp a - 48) + 100 * (cp b - 48) + 10 * (cp c - 48) + (cp d - 48), rest)
    else none
  | _ => none

/-- Is the remainder a valid UTC-offset suffix (`±HH:MM`) or empty? -/
def offsetOk : List Char → Bool
  | [] => true
  | c :: r =>
    (c = '+' || c = '-') &&
      (match parse2 r with
       | some (oh, ':' :: r2) =>
         (match parse2 r2 with
          | some (om, []) => oh ≤ 23 && om ≤ 59
          | _ => false)
       | _ => false)

/-- Is the remainder after `HH:MM:SS` valid (empty, fractional part, or
offset)? -/
def afterSeconds : List Char → Bool
  | [] => true
  | '.' :: r => !(r.takeWhile isDig).isEmpty && offsetOk (r.dropWhile isDig)
  | l => offsetOk l

/-- Is the remainder after `HH:MM` valid (empty, `:SS...`, or offset)? -/
def afterMinutes : List Char → Bool
  | [] => true
  | ':' :: r =>
    (match parse2 r with
     | some (s2, r2) => s2 ≤ 59 && afterSeconds r2
     | none => false)
  | l => offsetOk l

/-- Gregorian leap-year rule (as used by Python `datetime`). -/
def isLeap (y : Nat) : Bool := (y % 4 = 0 && y % 100 ≠ 0) || y % 400 = 0

/-- Days in a month (as validated by Python `datetime`). -/
def daysInMonth (y m : Nat) : Nat :=
  if m = 2 then (if isLeap y then 29 else 28)
  else if m = 4 || m = 6 || m = 9 || m = 11 then 30
  else 31

/-- Model of the external `datetime.fromisoformat`: accepts
`YYYY-MM-DD`, optionally followed by `T` or a space and
`HH:MM[:SS[.ffff]][±HH:MM]`, validating component ranges; every other
shape fails (returns `none`, where the library raises `ValueError`). -/
def pyFromisoformat (s : String) : Option PyDateTime :=
  match parse4 s.toList with
  | none => none
  | some (y, r1) =>
    match r1 with
    | '-' :: r2 =>
      match parse2 r2 with
      | none => none
      | some (mo, r3) =>
        match r3 with
        | '-' :: r4 =>
          match parse2 r4 with
          | none => none
          | some (d, r5) =>
            if 1 ≤ mo && mo ≤ 12 && 1 ≤ d && d ≤ daysInMonth y mo then
              match r5 with
              | [] => some ⟨y, mo, d, 0, 0⟩
              | sep :: r6 =>
                if sep = 'T' || sep = ' ' then
                  match parse2 r6 with
                  | none => none
                  | some (h, r7) =>
                    match r7 with
                    | ':' :: r8 =>
                      match parse2 r8 with
                      | none => none
                      | some (mi, r9) =>
                        if h ≤ 23 && mi ≤ 59 && afterMinutes r9 then
                          some ⟨y, mo, d, h, mi⟩
                        else none
                    | _ => none
                else none
            else none
        | _ => none
    | _ => none

/-- Zero-pad a number to two digits (strftime behaviour). -/
def pad2 (n : Nat) : String := (if n < 10 then "0" else "") ++ toString n

/-- Zero-pad a number to four digits (strftime `%Y` for years < 10000). -/
def pad4 (n : Nat) : String :=
  (if n < 10 then "000" else if n < 100 then "00" else if n < 1000 then "0" else "") ++ toString n

/-- `dt.strftime("%Y-%m-%d")`. -/
def fmtDate (dt : PyDateTime) : String :=
  pad4 dt.year ++ "-" ++ pad2 dt.month ++ "-" ++ pad2 dt.day

/-- `dt.strftime("%-I:%M %p")`: 12-hour clock, hour unpadded. -/
def fmt12 (h m : Nat) : String :=
  toString (if h % 12 = 0 then 12 else h % 12) ++ ":" ++ pad2 m ++ " " ++
    (if h < 12 then "AM" else "PM")

/-- `ds.replace("Z", "+00:00")` from `scrape.py` line 88. -/
def replZ : List Char → List Char
  | [] => []
  | c :: r => if c = 'Z' then '+' :: '0' :: '0' :: ':' :: '0' :: '0' :: replZ r else c :: replZ r

/-- The date/time resolution of `scrape_localist` (`scrape.py` lines
87-91): try `fromisoformat` on the `Z`-normalised string; on success
emit the canonical day and a 12-hour time (`"TBD"` when the hour is 0);
on failure emit the first 10 characters of the raw value and `"TBD"`. -/
def localistDateTime (ds : String) : String × String :=
  match pyFromisoformat ⟨replZ ds.toList⟩ with
  | some dt => (fmtDate dt, if dt.hour ≠ 0 then fmt12 dt.hour dt.minute else "TBD")
  | none => (pyTake 10 ds, "TBD")

/-- One item of the `scrape_localist` loop (`scrape.py` lines 80-94),
taking the already-extracted raw fields: skip when irrelevant or when
the date-like field is empty, otherwise emit the normalized event. -/
def localistItem (name title desc0 ds link loc : String) : Option Event :=
  let desc := clean desc0
  if !(relevant title desc) then none
  else if ds = "" then none
  else
    some { date := (localistDateTime ds).1, title := title, source := name,
           tag := tag_for title desc, desc := pyTake 300 desc, link := link,
           time := (localistDateTime ds).2, location := some loc,
           pick := none, pickNote := none }

/-- Extraction results for one card of `scrape_html`: the text of the
title and description elements when found, the primary `href` when
found, and `parsedDate`, the value of the variable `date` after the
strptime-cascade loop of lines 121-128 (`""` when no time element was
found or no format matched). -/
structure HtmlCard where
  titleText : Option String
  descText : Option String
  href : Option String
  parsedDate : String
deriving DecidableEq

/-- Link resolution of `scrape_html` (`scrape.py` lines 118-120): the
primary `href` when present else the page URL; a leading-slash link is
prefixed with the page origin. -/
def resolveHtmlLink (url : String) (href : Option String) : String :=
  let link := match href with | some h => h | none => url
  if pyStartsWith link "/" then urlOrigin url ++ link else link

/-- The trusted default-tag set of `scrape.py` line 129. -/
def trustedTags : List String := ["robotics", "manufacturing"]

/-- The description of an HTML card (`scrape.py` lines 116-117):
cleaned text of the description element when found, else empty. -/
def htmlCardDesc (c : HtmlCard) : String :=
  match c.descText with | some d => clean d | none => ""

/-- One card of the `scrape_html` loop (`scrape.py` lines 111-132):
title fallback and length guard, optional description, link resolution,
relevance-or-trusted admission, and tag assignment. -/
def processHtmlCard (url source default_tag : String) (c : HtmlCard) : Option Event :=
  match c.titleText with
  | none => none
  | some tt =>
    let title := clean tt
    if title = "" || title.length < 5 then none
    else
      let desc := htmlCardDesc c
      let link := resolveHtmlLink url c.href
      let date := c.parsedDate
      if relevant title desc || trustedTags.contains default_tag then
        some { date := if date = "" then "TBD" else date, title := title,
               source := source,
               tag := if relevant title desc then tag_for title desc else default_tag,
               desc := pyTake 300 desc, link := link, time := "TBD",
               location := none, pick := none, pickNote := none }
      else none

/-- Extraction results for one card of `scrape_meetup`: the title text
when a title element was found, the `href` of an events link when
found, and the time element (`none` when absent; `some attr` when
present, with `attr` its optional `datetime` attribute). -/
structure MeetupCard where
  titleText : Option String
  href : Option String
  te : Option (Option String)
deriving DecidableEq

/-- Link resolution of `scrape_meetup` (`scrape.py` lines 151-153). -/
def resolveMeetupLink (url : String) (href : Option String) : String :=
  let link := match href with | some h => h | none => url
  if pyStartsWith link "/" then "https://www.meetup.com" ++ link else link

/-- Date extraction of `scrape_meetup` (`scrape.py` line 155):
`te.get("datetime", "")[:10] if te else ""`. -/
def meetupDate (te : Option (Option String)) : String :=
  match te with
  | none => ""
  | some attr => pyTake 10 (match attr with | some a => a | none => "")

/-- One card of the `scrape_meetup` loop (`scrape.py` lines 146-157):
skip only on a missing or empty title; no relevance or exclusion test;
tag from title plus group name. -/
def processMeetupCard (url name : String) (c : MeetupCard) : Option Event :=
  match c.titleText with
  | none => none
  | some tt =>
    let title := clean tt
    if title = "" then none
    else
      some { date := (if meetupDate c.te = "" then "TBD" else meetupDate c.te),
             title := title, source := "Meetup", tag := tag_for title name,
             desc := "", link := resolveMeetupLink url c.href, time := "TBD",
             location := none, pick := none, pickNote := none }

/-- `STATIC` from `scrape.py` lines 165-196: the curated static event
list, translated field by field (apostrophes written as `\x27`). -/
def STATIC : List Event := [
  { date := "2026-04-13", title := "RAPID + TCT 2026", source := "Conference", tag := "manufacturing",
    desc := "North America\x27s largest additive manufacturing event. Boston Convention Center. Academic discounts.",
    link := "https://www.rapid3devent.com/", time := "9:00 AM", location := none,
    pick := some true, pickNote := some "Additive manufacturing + aerospace defense. Ask about academic discount" },
  { date := "2026-04-14", title := "AeroDef Manufacturing (co-located w/ RAPID)", source := "Conference", tag := "manufacturing",
    desc := "Aerospace & defense manufacturing. AI, digital twins, autonomy, supply chain. Boston Convention Center.",
    link := "https://www.aerodefevent.com/", time := "9:00 AM", location := none,
    pick := some true, pickNote := some "Autonomy, AI, digital twins — directly relevant to your career path" },
  { date := "2026-04-25", title := "National Drone Safety Day", source := "FAA", tag := "drones",
    desc := "FAA-sponsored: fly-ins, STEM demos, pilot training. Events nationwide.",
    link := "https://www.thedronegirl.com/2026/02/06/2026-drone-events/", time := "All Day", location := none,
    pick := some true, pickNote := some "You have your Part 107. Show up, fly, network with commercial operators" },
  { date := "2026-05-11", title := "AUVSI XPONENTIAL 2026", source := "AUVSI", tag := "drones",
    desc := "World\x27s largest unmanned systems conference. 8,500+ experts. Startup pavilion. Detroit, MI.",
    link := "https://xponential.org/", time := "All Day", location := none,
    pick := some true, pickNote := some "World\x27s largest unmanned systems conf. Worth the Detroit trip" },
  { date := "2026-05-22", title := "DroneArt Show Boston", source := "Event", tag := "drones",
    desc := "Candlelit concert + synchronized drone show. Ohiri Field, 95 N Harvard St.",
    link := "https://thedroneartshow.com/boston/", time := "Evening", location := none,
    pick := none, pickNote := none },
  { date := "2026-05-27", title := "Robotics Summit & Expo — Day 1", source := "MassRobotics", tag := "robotics",
    desc := "6,000+ devs. 50+ sessions, 250+ exhibitors, live demos, RBR50 Awards. Boston Convention Center.",
    link := "https://www.roboticssummit.com/", time := "9:00 AM", location := none,
    pick := some true, pickNote := some "THE MUST-ATTEND. Block these dates NOW. Email for academic discount" },
  { date := "2026-05-28", title := "Robotics Summit & Expo — Day 2", source := "MassRobotics", tag := "robotics",
    desc := "Women in Robotics Breakfast 8am. Keynotes, career fair, networking. Boston Convention Center.",
    link := "https://www.roboticssummit.com/", time := "8:00 AM", location := none,
    pick := some true, pickNote := some "Career fair + continued expo. Don\x27t skip day 2" },
  { date := "2026-06-22", title := "Automate 2026", source := "Conference", tag := "manufacturing",
    desc := "Premier robotics + automation + smart manufacturing show. Chicago, IL.",
    link := "https://www.automateshow.com/", time := "All Day", location := none,
    pick := some true, pickNote := some "Premier robotics + automation manufacturing show" },
  { date := "2026-09-01", title := "Commercial UAV Expo", source := "Conference", tag := "drones",
    desc := "Leading international commercial UAS trade show. Las Vegas.",
    link := "https://www.expouav.com/", time := "All Day", location := none,
    pick := none, pickNote := none },
  { date := "2026-09-22", title := "BioProcess International", source := "Conference", tag := "manufacturing",
    desc := "3,200+ scientists. Biopharmaceutical manufacturing. Hynes Convention Center, Boston.",
    link := "https://informaconnect.com/bioprocessinternational/", time := "All Day", location := none,
    pick := none, pickNote := none },
  { date := "2026-10-27", title := "Tough Tech Summit 2026", source := "The Engine", tag := "startup",
    desc := "Deep tech founders, investors. Robotics, energy, hard science. Hotel Commonwealth, Boston.",
    link := "https://engine.xyz/toughtechsummit", time := "All Day", location := none,
    pick := some true, pickNote := some "Deep tech founders and investors. The Engine was spun out of MIT" }]

/-- The dedup key of `scrape.py` line 344:
`(e.get("title", "").lower()[:50], e.get("date", ""))`. In this
embedding every event carries both fields, so the `get` defaults never
fire. -/
def dedupKey (e : Event) : String × String := (pyTake 50 (lowerStr e.title), e.date)

/-- The dedup loop of `scrape.py` lines 342-345; the Python `set` of
seen keys is modelled as a list queried by membership. -/
def dedupAux (seen : List (String × String)) : List Event → List Event
  | [] => []
  | e :: rest =>
    if seen.contains (dedupKey e) then dedupAux seen rest
    else e :: dedupAux (dedupKey e :: seen) rest

/-- `seen, deduped = set(), []; for e in all_events: ...` from
`scrape.py` lines 342-345. -/
def dedup (l : List Event) : List Event := dedupAux [] l

/-- The temporal filter of `scrape.py` line 348:
`e.get("date", "TBD") >= today or e.get("date") == "TBD"` (the `get`
default never fires here, as every event carries a date). -/
def filterFuture (today : String) (l : List Event) : List Event :=
  l.filter (fun e => pyGe e.date today || e.date == "TBD")

/-- The sort order of `scrape.py` line 349: ascending by the date
string (`key=lambda e: e.get("date", "9999")`; the `"9999"` default for
a missing key is never exercised since every event carries a date). -/
def dateLe (a b : Event) : Prop := pyLe a.date b.date = true

instance : DecidableRel dateLe := fun a b => decEq (pyLe a.date b.date) true

/-- `sorted(..., key=lambda e: e.get("date", "9999"))` from `scrape.py`
lines 347-350, modelled by a stable insertion sort (Python `sorted` is
stable). -/
def sortEvents (l : List Event) : List Event := List.insertionSort dateLe l

/-- The dedup-filter-sort tail of `main` (`scrape.py` lines 338-350):
the scraped drafts with `STATIC` appended, deduplicated, filtered
against `today`, and sorted. -/
def pipeline (scraped : List Event) (today : String) : List Event :=
  sortEvents (filterFuture today (dedup (scraped ++ STATIC)))

/-- Reference rendering of the spec sentence for deduplication ("the
first event observed for a given key is kept, all later events sharing
that key are discarded; relative order of survivors is preserved"):
keep the head, drop every later event with its key, recurse. Compared
against the implementation `dedup` in the C2 theorem. -/
def dedupSpec : List Event → List Event
  | [] => []
  | e :: rest => e :: dedupSpec (rest.filter (fun x => !(dedupKey x == dedupKey e)))
termination_by l => l.length
decreasing_by
  have := List.length_filter_le (fun x => !(dedupKey x == dedupKey e)) rest
  simp at this ⊢
  omega

/-- Spec-side shape test for a canonical zero-padded `YYYY-MM-DD` day
string ("looks date-shaped"): exactly ten characters, digits in the
year, month and day slots, dashes in between. -/
def isDateShaped (s : String) : Bool :=
  match s.toList with
  | [a1, a2, a3, a4, s1, b1, b2, s2, c1, c2] =>
    isDig a1 && isDig a2 && isDig a3 && isDig a4 && s1 = '-' &&
      isDig b1 && isDig b2 && s2 = '-' && isDig c1 && isDig c2
  | _ => false

/-- Spec-side test for an absolute URL (the spec invariant "link:
absolute URL; never source-relative"). -/
def isAbsoluteUrl (s : String) : Bool :=
  pyStartsWith s "http://" || pyStartsWith s "https://"

/-- Spec-side test that a string begins with an ASCII digit (every
canonical `YYYY-MM-DD` day string does; the sentinel `"TBD"` does not). -/
def startsWithDigit (s : String) : Bool :=
  match s.toList with
  | [] => false
  | c :: _ => isDig c

theorem tagAux_eq_talk (t : String) :
    ∀ rules, (∀ r ∈ rules, r.1.any (fun k => containsSub t k) = false) →
      tagAux t rules = "talk" := by
  intro rules
  induction rules with
  | nil => intro _; rfl
  | cons r rest ih =>
    intro h
    obtain ⟨kws, tag⟩ := r
    have h0 : kws.any (fun k => containsSub t k) = false :=
      h (kws, tag) (List.mem_cons_self _ _)
    simp only [tagAux, h0, Bool.false_eq_true, if_false]
    exact ih (fun r hr => h r (List.mem_cons_of_mem _ hr))

theorem tagAux_first (t : String) :
    ∀ rules i, i < List.length rules →
      (List.getD rules i ([], "talk")).1.any (fun k => containsSub t k) = true →
      (∀ j, j < i → (List.getD rules j ([], "talk")).1.any (fun k => containsSub t k) = false) →
      tagAux t rules = (List.getD rules i ([], "talk")).2 := by
  intro rules
  induction rules with
  | nil => intro i hi; simp at hi
  | cons r rest ih =>
    intro i hi hmatch hbefore
    cases i with
    | zero =>
      obtain ⟨kws, tag⟩ := r
      simp only [List.getD_cons_zero] at hmatch ⊢
      have hmatch2 : kws.any (fun k => containsSub t k) = true := hmatch
      simp [tagAux, hmatch2]
    | succ n =>
      have h00 := hbefore 0 (Nat.succ_pos n)
      obtain ⟨kws, tag⟩ := r
      simp only [List.getD_cons_zero] at h00
      have h0 : kws.any (fun k => containsSub t k) = false := h00
      simp only [tagAux, h0, Bool.false_eq_true, if_false, List.getD_cons_succ]
      exact ih n (by simpa using hi) (by simpa using hmatch)
        (fun j hj => by simpa using hbefore (j + 1) (Nat.succ_lt_succ hj))

/-- C1: if any configured exclusion keyword occurs as a substring of the
case-folded concatenation of title and description, `relevant` returns
`false`, whatever inclusion keywords are also present (the exclusion
check runs first and is a hard veto). -/
theorem c1_exclusion_vetoes_relevant :
    ∀ title desc,
      EXCLUDE_KW.any (fun k => containsSub (lowerStr (title ++ " " ++ desc)) k) = true →
      relevant title desc = false := by
  intro title desc h
  simp only [relevant, h, if_true]

theorem c1_exclusion_vetoes_relevant_witness :
    EXCLUDE_KW.any (fun k => containsSub (lowerStr ("Robotics Hockey Mixer" ++ " " ++ "")) k) = true ∧
    INCLUDE_KW.any (fun k => containsSub (lowerStr ("Robotics Hockey Mixer" ++ " " ++ "")) k) = true ∧
    relevant "Robotics Hockey Mixer" "" = false :=
  ⟨by decide, by decide, c1_exclusion_vetoes_relevant "Robotics Hockey Mixer" "" (by decide)⟩

/-- C5: `tag_for` scans the configured rule list in order; when no rule
keyword matches the case-folded concatenation its result is the default
`"talk"`, and when rule `i` matches while every earlier rule does not,
its result is rule `i`'s tag — so an input matching two rules receives
the tag of whichever rule comes first. -/
theorem c5_tag_for_first_rule :
    ∀ title desc,
      ((∀ r ∈ TAG_RULES, r.1.any (fun k => containsSub (lowerStr (title ++ " " ++ desc)) k) = false) →
        tag_for title desc = "talk") ∧
      (∀ i, i < List.length TAG_RULES →
        (List.getD TAG_RULES i ([], "talk")).1.any (fun k => containsSub (lowerStr (title ++ " " ++ desc)) k) = true →
        (∀ j, j < i → (List.getD TAG_RULES j ([], "talk")).1.any (fun k => containsSub (lowerStr (title ++ " " ++ desc)) k) = false) →
        tag_for title desc = (List.getD TAG_RULES i ([], "talk")).2) := by
  intro title desc
  exact ⟨fun h => tagAux_eq_talk _ _ h, fun i hi hm hb => tagAux_first _ _ i hi hm hb⟩

theorem c5_tag_for_first_rule_witness :
    (List.getD TAG_RULES 1 ([], "talk")).1.any (fun k => containsSub (lowerStr ("Drone AI Night" ++ " " ++ "")) k) = true ∧
    (List.getD TAG_RULES 3 ([], "talk")).1.any (fun k => containsSub (lowerStr ("Drone AI Night" ++ " " ++ "")) k) = true ∧
    tag_for "Drone AI Night" "" = (List.getD TAG_RULES 1 ([], "talk")).2 ∧
    (List.getD TAG_RULES 1 ([], "talk")).2 = "drones" := by
  refine ⟨by decide, by decide, ?_, by decide⟩
  exact (c5_tag_for_first_rule "Drone AI Night" "").2 1 (by decide) (by decide)
    (fun j hj => by
      have hj0 : j = 0 := by omega
      subst hj0; decide)

/-- C3: the temporal filter keeps an event exactly when its date is the
sentinel `"TBD"` or is lexicographically at least today's day string;
concretely, with today `"2026-01-01"` an event dated `"2025-12-31"` is
dropped while `"2026-01-01"` and `"TBD"` are kept. -/
theorem c3_temporal_filter :
    (∀ today (l : List Event) (e : Event),
      e ∈ filterFuture today l ↔ (e ∈ l ∧ (e.date = "TBD" ∨ pyGe e.date today = true))) ∧
    filterFuture "2026-01-01"
        [sampleEv "2025-12-31" "A", sampleEv "2026-01-01" "B", sampleEv "TBD" "C"] =
      [sampleEv "2026-01-01" "B", sampleEv "TBD" "C"] := by
  constructor
  · intro today l e
    simp only [filterFuture, List.mem_filter, Bool.or_eq_true, beq_iff_eq]
    tauto
  · decide

/-- C10: the Meetup adapter applies neither the relevance test nor the
exclusion veto — a card is emitted exactly when its cleaned title is
nonempty, and in particular a title containing the exclusion keyword
`"hockey"` is still emitted. -/
theorem c10_meetup_no_relevance_filter :
    (∀ url name (c : MeetupCard),
      (processMeetupCard url name c).isSome =
        (match c.titleText with
         | none => false
         | some tt => !(clean tt == ""))) ∧
    processMeetupCard "https://www.meetup.com/boston-air/" "Boston CV AIR"
        { titleText := some "Intramural Hockey Night", href := none, te := none } =
      some { date := "TBD", title := "Intramural Hockey Night", source := "Meetup",
             tag := "talk", desc := "", link := "https://www.meetup.com/boston-air/",
             time := "TBD", location := none, pick := none, pickNote := none } ∧
    relevant "Intramural Hockey Night" "" = false ∧
    EXCLUDE_KW.any (fun k => containsSub (lowerStr ("Intramural Hockey Night" ++ " " ++ "")) k) = true := by
  refine ⟨?_, by decide, by decide, by decide⟩
  intro url name c
  obtain ⟨tt?, href?, te?⟩ := c
  cases tt? with
  | none => simp [processMeetupCard]
  | some tt =>
    by_cases h : clean tt = "" <;> simp [processMeetupCard, h]

theorem dedupAux_sublist : ∀ (l : List Event) (seen), (dedupAux seen l).Sublist l := by
  intro l
  induction l with
  | nil => intro seen; simp [dedupAux]
  | cons e rest ih =>
    intro seen
    simp only [dedupAux]
    by_cases h : seen.contains (dedupKey e)
    · simp only [h, if_true]
      exact (ih seen).cons e
    · simp only [h, Bool.false_eq_true, if_false]
      exact (ih _).cons₂ e

theorem dedupAux_eq_spec : ∀ (l : List Event) (seen),
    dedupAux seen l = dedupSpec (l.filter (fun x => !(seen.contains (dedupKey x)))) := by
  intro l
  induction l with
  | nil => intro seen; simp [dedupAux, dedupSpec]
  | cons e rest ih =>
    intro seen
    simp only [dedupAux, List.filter_cons]
    by_cases h : seen.contains (dedupKey e)
    · simp only [h, if_true, Bool.not_true, Bool.false_eq_true, if_false]
      exact ih seen
    · simp only [h, Bool.false_eq_true, if_false, Bool.not_false, if_true]
      rw [dedupSpec]
      congr 1
      rw [ih (dedupKey e :: seen), List.filter_filter]
      congr 1
      apply List.filter_congr
      intro x _
      simp only [List.contains_cons, Bool.not_or]

/-- C2: deduplication is the stable first-occurrence pass the spec
describes — `dedup` equals the reference function that keeps the head
of each key class and drops every later event sharing its
(case-folded 50-character title prefix, date) key, and its output is a
sublist of the input, so survivors keep their input order. -/
theorem c2_dedup_first_occurrence_stable :
    ∀ l : List Event, dedup l = dedupSpec l ∧ (dedup l).Sublist l := by
  intro l
  constructor
  · rw [dedup, dedupAux_eq_spec]
    congr 1
    apply List.filter_eq_self.mpr
    intro a _
    simp
  · exact dedupAux_sublist l []

theorem pyLeL_total : ∀ as bs, pyLeL as bs = true ∨ pyLeL bs as = true := by
  intro as
  induction as with
  | nil => intro bs; exact Or.inl rfl
  | cons a as ih =>
    intro bs
    cases bs with
    | nil => exact Or.inr rfl
    | cons b bs2 =>
      simp only [pyLeL]
      rcases Nat.lt_trichotomy (cp a) (cp b) with h | h | h
      · left; rw [if_pos h]
      · have h1 : ¬ cp a < cp b := by omega
        have h2 : ¬ cp b < cp a := by omega
        rw [if_neg h1, if_pos h, if_neg h2, if_pos h.symm]
        exact ih bs2
      · right; rw [if_pos h]

theorem pyLeL_trans :
    ∀ as bs cs, pyLeL as bs = true → pyLeL bs cs = true → pyLeL as cs = true := by
  intro as
  induction as with
  | nil => intro bs cs _ _; rfl
  | cons a as ih =>
    intro bs cs h1 h2
    cases bs with
    | nil => simp [pyLeL] at h1
    | cons b bs2 =>
      cases cs with
      | nil => simp [pyLeL] at h2
      | cons c cs2 =>
        simp only [pyLeL] at h1 h2 ⊢
        by_cases hab : cp a < cp b
        · by_cases hbc : cp b < cp c
          · rw [if_pos (by omega)]
          · by_cases hbc2 : cp b = cp c
            · rw [if_pos (by omega)]
            · rw [if_neg hbc, if_neg hbc2] at h2
              exact absurd h2 (by simp)
        · by_cases hab2 : cp a = cp b
          · rw [if_neg hab, if_pos hab2] at h1
            by_cases hbc : cp b < cp c
            · rw [if_pos (by omega)]
            · by_cases hbc2 : cp b = cp c
              · rw [if_neg hbc, if_pos hbc2] at h2
                have hac : ¬ cp a < cp c := by omega
                have hac2 : cp a = cp c := by omega
                rw [if_neg hac, if_pos hac2]
                exact ih bs2 cs2 h1 h2
              · rw [if_neg hbc, if_neg hbc2] at h2
                exact absurd h2 (by simp)
          · rw [if_neg hab, if_neg hab2] at h1
            exact absurd h1 (by simp)

instance : IsTotal Event dateLe :=
  ⟨fun a b => pyLeL_total a.date.toList b.date.toList⟩

instance : IsTrans Event dateLe :=
  ⟨fun _ _ _ h1 h2 => pyLeL_trans _ _ _ h1 h2⟩

theorem pyLe_tbd_of_digit (d : String) :
    startsWithDigit d = true → pyLe "TBD" d = false := by
  intro h
  unfold startsWithDigit at h
  unfold pyLe
  cases hd : d.toList with
  | nil => rw [hd] at h; simp at h
  | cons c rest =>
    rw [hd] at h
    have hc : cp c ≤ 57 := by
      unfold isDig at h
      simp only [Bool.and_eq_true, decide_eq_true_eq] at h
      exact h.2
    have hT : cp 'T' = 84 := by decide
    show pyLeL ('T' :: 'B' :: 'D' :: []) (c :: rest) = false
    simp only [pyLeL]
    rw [if_neg (by omega), if_neg (by omega)]

/-- C4: the emitted list is the input sorted ascending by its date
string — a permutation of the input (so no stored field changes), with
adjacent pairs ordered by the Python string comparison on dates, and,
whenever every date is canonical (digit-initial) or the sentinel
`"TBD"`, no `"TBD"` event ever precedes a dated one (the sentinel sorts
last because `"T"` exceeds every digit). -/
theorem c4_sorted_by_date :
    ∀ l : List Event,
      List.Perm (sortEvents l) l ∧
      List.Sorted dateLe (sortEvents l) ∧
      ((∀ e ∈ l, e.date = "TBD" ∨ startsWithDigit e.date = true) →
        List.Pairwise (fun a b => a.date = "TBD" → b.date = "TBD") (sortEvents l)) := by
  intro l
  refine ⟨List.perm_insertionSort _ l, List.sorted_insertionSort _ l, ?_⟩
  intro h
  have hs := List.sorted_insertionSort dateLe l
  refine List.Pairwise.imp_of_mem ?_ hs
  intro a b _ hb hab hTBD
  have hb2 : b ∈ l := ((List.perm_insertionSort dateLe l).mem_iff).1 hb
  rcases h b hb2 with hb3 | hb3
  · exact hb3
  · exfalso
    unfold dateLe at hab
    rw [hTBD] at hab
    rw [pyLe_tbd_of_digit b.date hb3] at hab
    exact Bool.false_ne_true hab

theorem c4_sorted_by_date_witness :
    List.Pairwise (fun a b => a.date = "TBD" → b.date = "TBD")
      (sortEvents [sampleEv "TBD" "B", sampleEv "2026-01-01" "A"]) :=
  (c4_sorted_by_date [sampleEv "TBD" "B", sampleEv "2026-01-01" "A"]).2.2 (by decide)

/-- C6 counterexample: the curated static events are not exempt from
the temporal filter — with today `"2026-12-01"` (after every static
date) the pipeline output is empty even though the static list is not,
so no static entry "appears in the output unchanged". -/
theorem c6_static_filtered_counterexample :
    pipeline [] "2026-12-01" = [] ∧ STATIC ≠ [] := by
  exact ⟨by decide, by decide⟩

/-- C6 amended: curated static events are appended to the scraped
drafts and pass through the same dedup, temporal filter and sort as
scraped events; with no scraped drafts, a static event appears in the
output exactly when its date is `"TBD"` or at least today (their
distinct titles mean dedup alone never drops them). -/
theorem c6_static_subject_to_pipeline :
    ∀ today (e : Event),
      e ∈ pipeline [] today ↔ (e ∈ STATIC ∧ (e.date = "TBD" ∨ pyGe e.date today = true)) := by
  intro today e
  unfold pipeline sortEvents
  have hd : dedup ([] ++ STATIC) = STATIC := by decide
  rw [hd]
  rw [(List.perm_insertionSort dateLe (filterFuture today STATIC)).mem_iff]
  simp only [filterFuture, List.mem_filter, Bool.or_eq_true, beq_iff_eq]
  tauto

/-- C7 counterexample: when all date parsing fails, the Localist
adapter emits the first 10 characters of the raw value with no
date-shape check — the emitted event carries the raw prefix
`"next Tuesd"`, which is neither a canonical day string nor the
sentinel. -/
theorem c7_raw_prefix_counterexample :
    localistItem "MIT" "Robotics Seminar" "" "next Tuesday evening" "https://calendar.mit.edu/e/1" "Room 32" =
      some { date := "next Tuesd", title := "Robotics Seminar", source := "MIT",
             tag := "robotics", desc := "", link := "https://calendar.mit.edu/e/1",
             time := "TBD", location := some "Room 32", pick := none, pickNote := none } ∧
    isDateShaped "next Tuesd" = false ∧ "next Tuesd" ≠ "TBD" := by
  exact ⟨by decide, by decide, by decide⟩

/-- C7 amended: on a successful ISO parse the Localist date is the
canonical formatted day; on total parse failure the first 10 characters
of the raw value are used unconditionally (no date-shape check, so a
raw unparsed prefix can be emitted), and the Meetup adapter likewise
truncates the raw `datetime` attribute to 10 characters unchecked. -/
theorem c7_date_fallback_unchecked :
    (∀ ds : String, pyFromisoformat ⟨replZ ds.toList⟩ = none →
      (localistDateTime ds).1 = pyTake 10 ds ∧ (localistDateTime ds).2 = "TBD") ∧
    (∀ (ds : String) (dt : PyDateTime), pyFromisoformat ⟨replZ ds.toList⟩ = some dt →
      (localistDateTime ds).1 = fmtDate dt) ∧
    (∀ raw : String, meetupDate (some (some raw)) = pyTake 10 raw) := by
  refine ⟨?_, ?_, ?_⟩
  · intro ds h
    unfold localistDateTime
    rw [h]
    exact ⟨rfl, rfl⟩
  · intro ds dt h
    unfold localistDateTime
    rw [h]
  · intro raw
    rfl

theorem c7_date_fallback_unchecked_witness :
    pyFromisoformat ⟨replZ "sometime in spring".toList⟩ = none ∧
    (localistDateTime "sometime in spring").1 = pyTake 10 "sometime in spring" ∧
    pyTake 10 "sometime in spring" = "sometime i" ∧
    pyFromisoformat ⟨replZ "2026-05-01T18:00:00Z".toList⟩ = some ⟨2026, 5, 1, 18, 0⟩ ∧
    (localistDateTime "2026-05-01T18:00:00Z").1 = fmtDate ⟨2026, 5, 1, 18, 0⟩ ∧
    fmtDate ⟨2026, 5, 1, 18, 0⟩ = "2026-05-01" ∧
    meetupDate (some (some "whenever browsing works")) = pyTake 10 "whenever browsing works" :=
  ⟨by decide,
   (c7_date_fallback_unchecked.1 "sometime in spring" (by decide)).1,
   by decide,
   by decide,
   c7_date_fallback_unchecked.2.1 "2026-05-01T18:00:00Z" ⟨2026, 5, 1, 18, 0⟩ (by decide),
   by decide,
   c7_date_fallback_unchecked.2.2 "whenever browsing works"⟩

/-- C8 counterexample: the generic HTML adapter does not key the
default-tag substitution on the classifier's output — a relevant card
whose classifier tag is the default `"talk"` keeps `"talk"` (the
configured default `"robotics"` is not substituted), while an
irrelevant card admitted through the trusted default `"manufacturing"`
has its specific classifier tag `"robotics"` overridden. -/
theorem c8_default_tag_counterexample :
    processHtmlCard "https://www.csail.mit.edu/events" "MIT CSAIL" "robotics"
        { titleText := some "Engineering Seminar Series", descText := none,
          href := some "https://x/e", parsedDate := "" } =
      some { date := "TBD", title := "Engineering Seminar Series", source := "MIT CSAIL",
             tag := "talk", desc := "", link := "https://x/e", time := "TBD",
             location := none, pick := none, pickNote := none } ∧
    tag_for "Engineering Seminar Series" "" = "talk" ∧
    processHtmlCard "https://www.csail.mit.edu/events" "MIT CSAIL" "manufacturing"
        { titleText := some "Humanoid Demo", descText := none, href := none, parsedDate := "" } =
      some { date := "TBD", title := "Humanoid Demo", source := "MIT CSAIL",
             tag := "manufacturing", desc := "",
             link := "https://www.csail.mit.edu/events", time := "TBD",
             location := none, pick := none, pickNote := none } ∧
    tag_for "Humanoid Demo" "" = "robotics" := by
  exact ⟨by decide, by decide, by decide, by decide⟩

/-- C8 amended: for every card the HTML adapter emits, the configured
default tag is substituted exactly when `relevant` is false (the card
was admitted only through the trusted-default override); when
`relevant` is true the classifier's tag is kept, even when it is the
default `"talk"`. -/
theorem c8_default_tag_on_irrelevant :
    ∀ url source default_tag (c : HtmlCard) (ev : Event) (tt : String),
      c.titleText = some tt →
      processHtmlCard url source default_tag c = some ev →
      (relevant (clean tt) (htmlCardDesc c) = true →
        ev.tag = tag_for (clean tt) (htmlCardDesc c)) ∧
      (relevant (clean tt) (htmlCardDesc c) = false → ev.tag = default_tag) := by
  intro url source dt c ev tt htt h
  obtain ⟨tt?, dd, hh, pd⟩ := c
  simp only at htt
  subst htt
  unfold processHtmlCard at h
  simp only at h
  split at h
  · exact absurd h (by simp)
  · split at h
    · have hev := Option.some.inj h
      subst hev
      constructor
      · intro hr
        simp only [hr, if_true]
      · intro hr
        simp only [hr, Bool.false_eq_true, if_false]
    · exact absurd h (by simp)

theorem c8_default_tag_on_irrelevant_witness :
    relevant (clean "Engineering Seminar Series")
        (htmlCardDesc { titleText := some "Engineering Seminar Series", descText := none,
                        href := some "https://x/e", parsedDate := "" }) = true ∧
    ({ date := "TBD", title := "Engineering Seminar Series", source := "MIT CSAIL",
       tag := "talk", desc := "", link := "https://x/e", time := "TBD",
       location := none, pick := none, pickNote := none } : Event).tag =
      tag_for (clean "Engineering Seminar Series")
        (htmlCardDesc { titleText := some "Engineering Seminar Series", descText := none,
                        href := some "https://x/e", parsedDate := "" }) :=
  ⟨by decide,
   (c8_default_tag_on_irrelevant "https://www.csail.mit.edu/events" "MIT CSAIL" "robotics"
      { titleText := some "Engineering Seminar Series", descText := none,
        href := some "https://x/e", parsedDate := "" }
      { date := "TBD", title := "Engineering Seminar Series", source := "MIT CSAIL",
        tag := "talk", desc := "", link := "https://x/e", time := "TBD",
        location := none, pick := none, pickNote := none }
      "Engineering Seminar Series" rfl (by decide)).1 (by decide)⟩

theorem leadEq_refl_append : ∀ (p t : List Char), leadEq p (p ++ t) = true := by
  intro p t
  induction p with
  | nil => rfl
  | cons a as ih => simp [leadEq, ih]

theorem leadEq_exists : ∀ (p s : List Char), leadEq p s = true → ∃ q, s = p ++ q := by
  intro p
  induction p with
  | nil => intro s _; exact ⟨s, rfl⟩
  | cons a as ih =>
    intro s h
    cases s with
    | nil => simp [leadEq] at h
    | cons b bs =>
      simp only [leadEq, Bool.and_eq_true, beq_iff_eq] at h
      obtain ⟨q, hq⟩ := ih bs h.2
      exact ⟨q, by rw [h.1, hq]; rfl⟩

theorem data_append (s t : String) : (s ++ t).toList = s.toList ++ t.toList := by
  cases s; cases t; rfl

theorem pyStartsWith_https_append (s t : String) (q : List Char)
    (h : s.toList = "https://".toList ++ q) : pyStartsWith (s ++ t) "https://" = true := by
  unfold pyStartsWith
  rw [data_append, h, List.append_assoc]
  exact leadEq_refl_append _ _

theorem pySplitAux_ne_nil :
    ∀ (l : List Char) (sep : Char) (acc : List Char), ∃ h0 t0, pySplitAux sep acc l = h0 :: t0 := by
  intro l
  induction l with
  | nil => intro sep acc; exact ⟨acc.reverse, [], rfl⟩
  | cons c rest ih =>
    intro sep acc
    by_cases h : c = sep
    · exact ⟨acc.reverse, pySplitAux sep [] rest, by simp [pySplitAux, h]⟩
    · obtain ⟨h0, t0, ht⟩ := ih sep (c :: acc)
      exact ⟨h0, t0, by simp [pySplitAux, h, ht]⟩

theorem split_https (rest : List Char) :
    pySplitAux '/' [] ("https://".toList ++ rest) =
      "https:".toList :: [] :: pySplitAux '/' [] rest := by
  rfl

theorem origin_https (url : String) :
    pyStartsWith url "https://" = true →
      ∃ q, (urlOrigin url).toList = "https://".toList ++ q := by
  intro h
  obtain ⟨q0, hq0⟩ := leadEq_exists "https://".toList url.toList h
  obtain ⟨h0, t0, hsplit⟩ := pySplitAux_ne_nil q0 '/' []
  refine ⟨h0, ?_⟩
  show List.intercalate ['/'] ((pySplitAux '/' [] url.toList).take 3) = "https://".toList ++ h0
  rw [hq0, split_https, hsplit]
  show List.intercalate ['/'] ["https:".toList, [], h0] = "https://".toList ++ h0
  simp [List.intercalate, List.intersperse]

/-- C9 counterexample: a relative primary link that does not begin with
a slash is emitted unchanged — the event's `link` field is the
source-relative reference `"details.html"`, not an absolute URL. -/
theorem c9_relative_link_counterexample :
    processHtmlCard "https://www.csail.mit.edu/events" "MIT CSAIL" "ai"
        { titleText := some "Robotics Talk Today", descText := none,
          href := some "details.html", parsedDate := "" } =
      some { date := "TBD", title := "Robotics Talk Today", source := "MIT CSAIL",
             tag := "robotics", desc := "", link := "details.html", time := "TBD",
             location := none, pick := none, pickNote := none } ∧
    isAbsoluteUrl "details.html" = false ∧
    pyStartsWith "details.html" "/" = false := by
  exact ⟨by decide, by decide, by decide⟩

/-- C9 amended: the HTML adapters resolve only root-relative links (a
leading `/`) against the page origin — such links become absolute when
the page URL is an `https://` URL, and the Meetup adapter prefixes them
with its fixed absolute host — while any other href (absolute or
relative without a leading slash) is emitted exactly as found. -/
theorem c9_root_relative_links_resolved :
    (∀ url href : String, pyStartsWith href "/" = true →
      resolveHtmlLink url (some href) = urlOrigin url ++ href) ∧
    (∀ url href : String, pyStartsWith href "/" = false →
      resolveHtmlLink url (some href) = href) ∧
    (∀ url href : String, pyStartsWith url "https://" = true → pyStartsWith href "/" = true →
      isAbsoluteUrl (resolveHtmlLink url (some href)) = true) ∧
    (∀ url href : String, pyStartsWith href "/" = true →
      resolveMeetupLink url (some href) = "https://www.meetup.com" ++ href ∧
        isAbsoluteUrl (resolveMeetupLink url (some href)) = true) := by
  refine ⟨?_, ?_, ?_, ?_⟩
  · intro url href h
    simp [resolveHtmlLink, h]
  · intro url href h
    simp [resolveHtmlLink, h]
  · intro url href hu hh
    have ha : resolveHtmlLink url (some href) = urlOrigin url ++ href := by
      simp [resolveHtmlLink, hh]
    rw [ha]
    unfold isAbsoluteUrl
    rw [Bool.or_eq_true]
    right
    obtain ⟨q, hq⟩ := origin_https url hu
    exact pyStartsWith_https_append _ _ q hq
  · intro url href h
    have hm : resolveMeetupLink url (some href) = "https://www.meetup.com" ++ href := by
      simp [resolveMeetupLink, h]
    refine ⟨hm, ?_⟩
    rw [hm]
    unfold isAbsoluteUrl
    rw [Bool.or_eq_true]
    right
    exact pyStartsWith_https_append _ _ "www.meetup.com".toList rfl

theorem c9_root_relative_links_resolved_witness :
    pyStartsWith "/x/y" "/" = true ∧
    resolveHtmlLink "https://www.csail.mit.edu/events" (some "/x/y") =
      urlOrigin "https://www.csail.mit.edu/events" ++ "/x/y" ∧
    urlOrigin "https://www.csail.mit.edu/events" ++ "/x/y" = "https://www.csail.mit.edu/x/y" ∧
    isAbsoluteUrl (resolveHtmlLink "https://www.csail.mit.edu/events" (some "/x/y")) = true ∧
    resolveMeetupLink "https://www.meetup.com/boston-air/" (some "/e/1") =
      "https://www.meetup.com" ++ "/e/1" ∧
    ("https://www.meetup.com" ++ "/e/1" : String) = "https://www.meetup.com/e/1" ∧
    pyStartsWith "details.html" "/" = false ∧
    resolveHtmlLink "https://www.csail.mit.edu/events" (some "details.html") = "details.html" :=
  ⟨by decide,
   c9_root_relative_links_resolved.1 _ _ (by decide),
   by decide,
   c9_root_relative_links_resolved.2.2.1 _ _ (by decide) (by decide),
   (c9_root_relative_links_resolved.2.2.2 _ _ (by decide)).1,
   by decide,
   by decide,
   c9_root_relative_links_resolved.2.1 _ _ (by decide)⟩

end EventRadar
